import Mathlib

/-!
Shallow embedding of the essay-competition pipeline in
`src/context_Specific_Content_Classifier.py`.

Conventions of the embedding:
* Python strings are modelled as `String` / `List Char`; `str.lower()` is
  `Char.toLower` mapped over the characters (faithful for the ASCII texts the
  program handles).
* Python floats that the program computes are exact small fractions of
  integers (five-way means of integers, one-decimal score literals), so they
  are modelled exactly as `ℚ`.
* A `requests.post` call is modelled by its observable outcome
  (`HttpOutcome`): either a raised exception with its message, or a response
  with a status code and the extracted `response` field of the JSON body
  (`.get("response", "")`, absent field = empty string).
* `re.search` with the patterns the program uses (a case-insensitive literal,
  then `\s*`, then a digit/alternation part) is modelled by trying the match
  at every suffix of the text and taking the first success, which is exactly
  the semantics of `re.search` for these backtracking-free patterns.
-/

/-- Python `\s` character class (ASCII part): space, tab, newline, carriage
return, vertical tab, form feed. -/
def isPySpace (c : Char) : Bool :=
  c = ' ' || c = '\t' || c = '\n' || c = '\r' || c = '\x0b' || c = '\x0c'

/-- Python `str.lower()` over a character list (ASCII case folding). -/
def pyLower (s : List Char) : List Char :=
  s.map Char.toLower

/-- Python `str.strip()`: drop whitespace from both ends. -/
def pyStrip (s : List Char) : List Char :=
  ((s.dropWhile isPySpace).reverse.dropWhile isPySpace).reverse

/-- Case-insensitive literal match at the start of the input: on success
returns the rest of the input after the matched literal. -/
def matchCI : List Char → List Char → Option (List Char)
  | [], s => some s
  | _ :: _, [] => none
  | p :: ps, c :: cs => if p.toLower = c.toLower then matchCI ps cs else none

/-- Does `p` occur at the start of `s` (exact match)? Python
`str.startswith` over character lists. -/
def leadsWith : List Char → List Char → Bool
  | [], _ => true
  | _ :: _, [] => false
  | a :: as, b :: bs => a = b && leadsWith as bs

/-- Python substring containment `p in s` (exact match). -/
def strIn (p : List Char) : List Char → Bool
  | [] => leadsWith p []
  | c :: t => leadsWith p (c :: t) || strIn p t

/-- `re.search` for a pattern whose match attempt at one position is `m`:
try every suffix left to right, first success wins. -/
def searchFirst {α : Type} (m : List Char → Option α) : List Char → Option α
  | [] => m []
  | c :: t =>
    match m (c :: t) with
    | some r => some r
    | none => searchFirst m t

/-- Digit run to the integer it denotes, as Python `int` does. -/
def digitsToNat (ds : List Char) : Nat :=
  ds.foldl (fun a c => a * 10 + (c.toNat - 48)) 0

/-- Match attempt for `CLASSIFICATION:\s*(YES|NO)` (IGNORECASE) at one
position: `some true` when the alternative `YES` matched, `some false` for
`NO`. -/
def classifAt (s : List Char) : Option Bool :=
  match matchCI ( "classification:".toList) s with
  | none => none
  | some rest =>
    match matchCI ( "yes".toList) (rest.dropWhile isPySpace) with
    | some _ => some true
    | none =>
      match matchCI ( "no".toList) (rest.dropWhile isPySpace) with
      | some _ => some false
      | none => none

/-- Match attempt for `SCORE:\s*([1-5](?:\.[0-9])?)` (IGNORECASE) at one
position. The value is returned in tenths (`"5.9"` gives `59`, `"4"` gives
`40`), which represents the Python float exactly. -/
def scoreAt (s : List Char) : Option Nat :=
  match matchCI ( "score:".toList) s with
  | none => none
  | some rest =>
    match rest.dropWhile isPySpace with
    | [] => none
    | d :: rest2 =>
      if 49 ≤ d.toNat ∧ d.toNat ≤ 53 then
        match rest2 with
        | f1 :: f2 :: _ =>
          if f1 = '.' ∧ 48 ≤ f2.toNat ∧ f2.toNat ≤ 57 then
            some ((d.toNat - 48) * 10 + (f2.toNat - 48))
          else some ((d.toNat - 48) * 10)
        | _ => some ((d.toNat - 48) * 10)
      else none

/-- Match attempt for `<label>\s*(\d+)` (IGNORECASE) at one position, where
`lbl` is the literal label including its colon. -/
def labelIntAt (lbl : List Char) (s : List Char) : Option Nat :=
  match matchCI lbl s with
  | none => none
  | some rest =>
    let ds := (rest.dropWhile isPySpace).takeWhile Char.isDigit
    if ds.isEmpty then none else some (digitsToNat ds)

/-- Observable outcome of one `requests.post` call: a raised exception with
its message, or a response with status code and extracted completion text. -/
inductive HttpOutcome : Type
  | exn (msg : String)
  | resp (status : Nat) (body : String)

/-- The `independence_keywords` list of `ollama_classify_score`. -/
def independence_keywords : List String :=
  [ "independence day", "august 15", "15th august", "freedom struggle",
    "british rule", "gandhi", "nehru", "freedom fighter", "patriotic",
    "tiranga", "tricolor", "national flag", "red fort", "partition" ]

/-- The `other_keywords` list of `ollama_classify_score`. -/
def other_keywords : List String :=
  [ "social media", "facebook", "instagram", "environmental protection",
    "climate change", "career goals", "software engineer", "online education",
    "covid-19", "sports importance", "basketball", "cricket", "wings of fire" ]

/-- Number of inclusion keywords occurring in the lowercased full essay
text: `sum(1 for keyword in independence_keywords if keyword in essay_lower)`. -/
def inclusionCount (essay : String) : Nat :=
  (independence_keywords.filter (fun kw => strIn kw.toList (pyLower essay.toList))).length

/-- Number of exclusion keywords occurring in the lowercased full essay text. -/
def exclusionCount (essay : String) : Nat :=
  (other_keywords.filter (fun kw => strIn kw.toList (pyLower essay.toList))).length

/-- Provisional classification parsed from the model output:
`"Yes" if classification_match and classification_match.group(1).upper() == "YES" else "No"`. -/
def provisionalClassification (output : List Char) : String :=
  match searchFirst classifAt output with
  | some true => "Yes"
  | _ => "No"

/-- The keyword fallback of `ollama_classify_score`: only on a provisional
`"No"`, override to `"Yes"` when `independence_score > other_score and
independence_score >= 2`. -/
def applyFallback (essay : String) (cls0 : String) : String :=
  if cls0 = "No" then
    if exclusionCount essay < inclusionCount essay ∧ 2 ≤ inclusionCount essay then "Yes"
    else "No"
  else cls0

/-- The advisory score parsed from the model output, `3.0` when the
`SCORE:` pattern does not match. -/
def parsedScore (output : List Char) : ℚ :=
  match searchFirst scoreAt output with
  | some t => (t : ℚ) / 10
  | none => 3

/-- Return value of `ollama_classify_score`: the tuple
`(classification, score, raw_output)`. -/
structure ClassifyResult : Type where
  classification : String
  score : Option ℚ
  raw : String

/-- `ollama_classify_score(essay)` as a function of the essay text and the
network outcome of its single `requests.post` call. -/
def ollama_classify_score (essay : String) (net : HttpOutcome) : ClassifyResult :=
  match net with
  | .exn msg => ⟨ "Error", none, msg⟩
  | .resp status body =>
    if status ≠ 200 then ⟨ "Error", none, "HTTP " ++ toString status⟩
    else
      let output := pyStrip body.toList
      ⟨applyFallback essay (provisionalClassification output),
       some (parsedScore output), String.mk output⟩

/-- Clamping of one parsed rating: `min(max(score, 1), 10)`. -/
def clamp110 (n : Nat) : Nat :=
  min (max n 1) 10

/-- The label of the regex for one rating dimension in
`quick_essay_analysis`, literal part included, e.g. `Relevance:` for
`r'Relevance:\s*(\d+)'`. -/
def relevanceLbl : String := "Relevance:"

/-- Label of the `content` dimension's regex. -/
def contentLbl : String := "Content:"

/-- Label of the `writing` dimension's regex. -/
def writingLbl : String := "Writing:"

/-- Label of the `original` dimension's regex. -/
def originalLbl : String := "Original:"

/-- Label of the `impact` dimension's regex. -/
def impactLbl : String := "Impact:"

/-- One dimension of `quick_essay_analysis`: first match of
`<label>\s*(\d+)` clamped to `[1, 10]`, default `6` when the pattern does
not match. -/
def parseDim (lbl : String) (output : List Char) : Nat :=
  match searchFirst (labelIntAt lbl.toList) output with
  | some n => clamp110 n
  | none => 6

/-- The analysis record built by `quick_essay_analysis` (the five integer
ratings, the derived overall score and the letter grade). -/
structure Analysis : Type where
  relevance : Nat
  content : Nat
  writing : Nat
  original : Nat
  impact : Nat
  overall_score : ℚ
  grade : String

/-- The grade ladder of `quick_essay_analysis`. -/
def gradeOf (score : ℚ) : String :=
  if 9 ≤ score then "A+"
  else if 8 ≤ score then "A"
  else if 7 ≤ score then "B+"
  else if 6 ≤ score then "B"
  else if 5 ≤ score then "C+"
  else "C"

/-- The analysis record `quick_essay_analysis` builds from one successful
response text: the five parsed ratings, their mean (the `scores` list always
has exactly five entries, one per pattern), and the grade ladder applied to
the mean. -/
def analysisOf (output : List Char) : Analysis :=
  let r := parseDim relevanceLbl output
  let c := parseDim contentLbl output
  let w := parseDim writingLbl output
  let o := parseDim originalLbl output
  let i := parseDim impactLbl output
  let overall : ℚ := ((r + c + w + o + i : Nat) : ℚ) / 5
  ⟨r, c, w, o, i, overall, gradeOf overall⟩

/-- `quick_essay_analysis(essay, filename)` as a function of the network
outcome of its single `requests.post` call (the essay and filename only
influence the prompt, hence only the free response variable). Returns
`none` exactly where the Python function returns `None`. -/
def quick_essay_analysis (net : HttpOutcome) : Option Analysis :=
  match net with
  | .exn _ => none
  | .resp status body =>
    if status ≠ 200 then none
    else some (analysisOf (pyStrip body.toList))

/-- The neutral default analysis that
`process_essay_folder_with_quick_analysis` substitutes when
`quick_essay_analysis` returns `None`. -/
def defaultAnalysis : Analysis :=
  ⟨6, 6, 6, 6, 6, 6, "B"⟩

/-- One input file after reading: name and full text. -/
structure FileItem : Type where
  filename : String
  content : String

/-- An essay that survived classification (entry of
`independence_day_essays`): filename, full content, advisory model score. -/
structure Essay : Type where
  filename : String
  content : String
  basic_score : Option ℚ

/-- An essay after the scoring phase (entry of `successful_analyses`). -/
structure ScoredEssay : Type where
  filename : String
  content : String
  basic_score : Option ℚ
  analysis : Analysis

/-- Python `str.lower()` on a `String`. -/
def pyLowerStr (s : String) : String :=
  String.mk (pyLower s.toList)

/-- One iteration of the phase-1 loop of
`process_essay_folder_with_quick_analysis`: an `Error` classification
leaves both lists unchanged, a yes-classification appends to the included
essays, a no-classification appends the filename to the wrong-topic list. -/
def classifyStep (acc : List Essay × List String) (x : FileItem × HttpOutcome) :
    List Essay × List String :=
  let res := ollama_classify_score x.1.content x.2
  if res.classification = "Error" then acc
  else if pyLowerStr res.classification = "yes" then
    (acc.1 ++ [ ⟨x.1.filename, x.1.content, res.score⟩ ], acc.2)
  else if pyLowerStr res.classification = "no" then
    (acc.1, acc.2 ++ [ x.1.filename ])
  else acc

/-- Phase 1 of `process_essay_folder_with_quick_analysis` over the
successfully read input files, returning `independence_day_essays` and the
filenames of `wrong_topic_essays`. -/
def classification_phase (items : List (FileItem × HttpOutcome)) :
    List Essay × List String :=
  items.foldl classifyStep ([], [])

/-- Phase 2 of `process_essay_folder_with_quick_analysis`: every included
essay is analysed; a failed analysis is replaced by the neutral default and
the essay is kept (`successful_analyses` receives it in both branches). -/
def scoring_phase (l : List (Essay × HttpOutcome)) : List ScoredEssay :=
  l.map (fun x =>
    match quick_essay_analysis x.2 with
    | some a => ⟨x.1.filename, x.1.content, x.1.basic_score, a⟩
    | none => ⟨x.1.filename, x.1.content, x.1.basic_score, defaultAnalysis⟩)

/-- The ranking order: `b` may follow `a` when `b`'s overall score is at
most `a`'s. -/
def rankLE (a b : ScoredEssay) : Prop :=
  b.analysis.overall_score ≤ a.analysis.overall_score

instance : DecidableRel rankLE :=
  fun a b => inferInstanceAs (Decidable (b.analysis.overall_score ≤ a.analysis.overall_score))

instance : IsTotal ScoredEssay rankLE :=
  ⟨fun a b => le_total b.analysis.overall_score a.analysis.overall_score⟩

instance : IsTrans ScoredEssay rankLE :=
  ⟨fun _ _ _ hab hbc => le_trans hbc hab⟩

/-- Phase 3: `sorted(successful_analyses, key=overall_score, reverse=True)`.
CPython's `sorted` is a stable sort, and with `reverse=True` equal keys
still keep their input order; the unique stable descending sort is realised
here by insertion sort with the non-strict descending order. -/
def rank_essays (l : List ScoredEssay) : List ScoredEssay :=
  List.insertionSort rankLE l

/-- One entry of `top_3_data` in `process_single_zone_for_multi`. -/
structure ZoneEssay : Type where
  filename : String
  zone : String
  content : String
  overall_score : ℚ
  grade : String
  zone_rank : Nat

/-- `process_single_zone_for_multi` after its zone's scoring phase: sort
descending, keep the first three, attach the zone name and 1-based rank. -/
def process_single_zone_for_multi (zoneName : String) (analyses : List ScoredEssay) :
    List ZoneEssay :=
  ((rank_essays analyses).take 3).enum.map (fun p =>
    ⟨p.2.filename, zoneName, p.2.content, p.2.analysis.overall_score,
     p.2.analysis.grade, p.1 + 1⟩)

/-- One essay block of the `combined_summary` string that
`compare_zones_top_essays` embeds in the grand-judge prompt: the global
running number, filename, the zone name printed with it, zone rank, zone
score and the 400-character content preview. -/
structure SummaryEntry : Type where
  idx : Nat
  filename : String
  zone : String
  zone_rank : Nat
  overall_score : ℚ
  preview : List Char

/-- The inner loop of the summary construction: one block per essay of a
zone, with the global essay counter threaded through. -/
def entriesFor (zoneName : String) : Nat → List ZoneEssay → List SummaryEntry
  | _, [] => []
  | cnt, e :: es =>
    ⟨cnt + 1, e.filename, zoneName, e.zone_rank, e.overall_score,
     e.content.toList.take 400⟩ :: entriesFor zoneName (cnt + 1) es

/-- The `combined_summary` of `compare_zones_top_essays`: empty zones are
skipped, a non-empty zone contributes one block per essay under the zone
name taken from its first essay. -/
def combined_summary : Nat → List (List ZoneEssay) → List SummaryEntry
  | _, [] => []
  | cnt, z :: zs =>
    match z with
    | [] => combined_summary cnt zs
    | first :: _ => entriesFor first.zone cnt z ++ combined_summary (cnt + z.length) zs

/-- Outcome of the cross-zone phase of `multi_zone_competition`: either the
insufficient-zones abort, or an attempted grand comparison whose prompt
contains the listed candidate blocks. -/
inductive CrossZoneResult : Type
  | insufficientZones
  | compared (entries : List SummaryEntry)

/-- What `multi_zone_competition` leaves behind: the per-zone results (one
top-list per processed zone, untouched by the cross-zone phase) and the
cross-zone outcome. -/
structure MultiZoneOutcome : Type where
  perZone : List (String × List ZoneEssay)
  cross : CrossZoneResult

/-- The cross-zone decision logic of `multi_zone_competition`: drop zones
with no qualifying essays, abort when fewer than two remain, otherwise
attempt the grand comparison over all surviving candidates. -/
def multi_zone_competition (zones : List (String × List ZoneEssay)) : MultiZoneOutcome :=
  let valid := zones.filter (fun z => !z.2.isEmpty)
  if valid.length < 2 then ⟨zones, .insufficientZones⟩
  else ⟨zones, .compared (combined_summary 0 (valid.map (fun z => z.2)))⟩

/-- A transport failure (raised exception) or protocol failure (non-OK
status) of one inference call. -/
def netFailed : HttpOutcome → Prop
  | .exn _ => True
  | .resp status _ => status ≠ 200

/-- The label of the i-th rating dimension, in the order of the `patterns`
dict of `quick_essay_analysis`. -/
def dimLabel : Fin 5 → String
  | 0 => relevanceLbl
  | 1 => contentLbl
  | 2 => writingLbl
  | 3 => originalLbl
  | 4 => impactLbl

/-- The i-th rating dimension of an analysis, in `patterns` order. -/
def dimValue (a : Analysis) : Fin 5 → Nat
  | 0 => a.relevance
  | 1 => a.content
  | 2 => a.writing
  | 3 => a.original
  | 4 => a.impact

example : provisionalClassification ( "TOPIC: x\nCLASSIFICATION: YES\nSCORE: 4.5".toList) = "Yes" := by decide

example : provisionalClassification ( "classification:no".toList) = "No" := by decide

example : searchFirst scoreAt ( "SCORE: 4.5".toList) = some 45 := by decide

example : searchFirst scoreAt ( "SCORE: 5.9".toList) = some 59 := by decide

example : parsedScore ( "SCORE: 5.9".toList) = 59 / 10 := by
  have h : searchFirst scoreAt ( "SCORE: 5.9".toList) = some 59 := by decide
  rw [parsedScore, h]
  norm_num

example : parsedScore ( "SCORE: yes".toList) = 3 := by decide

example : inclusionCount "I love Gandhi and Nehru" = 2 := by decide

theorem clamp110_bounds (n : Nat) : 1 ≤ clamp110 n ∧ clamp110 n ≤ 10 := by
  unfold clamp110
  omega

theorem parseDim_bounds (lbl : String) (out : List Char) :
    1 ≤ parseDim lbl out ∧ parseDim lbl out ≤ 10 := by
  unfold parseDim
  split
  · exact clamp110_bounds _
  · exact ⟨by omega, by omega⟩

theorem analysisOf_overall (out : List Char) :
    (analysisOf out).overall_score =
      (((analysisOf out).relevance + (analysisOf out).content + (analysisOf out).writing +
        (analysisOf out).original + (analysisOf out).impact : ℕ) : ℚ) / 5 := rfl

theorem analysisOf_grade (out : List Char) :
    (analysisOf out).grade = gradeOf (analysisOf out).overall_score := rfl

theorem analysisOf_dim_bounds (out : List Char) (i : Fin 5) :
    1 ≤ dimValue (analysisOf out) i ∧ dimValue (analysisOf out) i ≤ 10 := by
  fin_cases i <;> exact parseDim_bounds _ _

theorem quick_essay_analysis_some {net : HttpOutcome} {a : Analysis}
    (h : quick_essay_analysis net = some a) : ∃ out, a = analysisOf out := by
  cases net with
  | exn msg => simp [quick_essay_analysis] at h
  | resp status body =>
    simp only [quick_essay_analysis] at h
    by_cases hs : status = 200
    · subst hs
      rw [if_neg (by simp)] at h
      exact ⟨pyStrip body.toList, (Option.some.inj h).symm⟩
    · rw [if_pos hs] at h
      exact absurd h (by simp)

/-- C1: every analysis a scoring response produces (malformed and partial
responses included) has an aggregate equal to the arithmetic mean of its
exactly five dimension values, each of which lies in `[1, 10]`; the neutral
default analysis substituted on scoring failure satisfies the same
invariant. -/
theorem c1_aggregate_is_mean_of_five_dimensions :
    (∀ (net : HttpOutcome) (a : Analysis), quick_essay_analysis net = some a →
        a.overall_score =
          ((a.relevance + a.content + a.writing + a.original + a.impact : ℕ) : ℚ) / 5 ∧
        ∀ i : Fin 5, 1 ≤ dimValue a i ∧ dimValue a i ≤ 10) ∧
    (defaultAnalysis.overall_score =
        ((defaultAnalysis.relevance + defaultAnalysis.content + defaultAnalysis.writing +
          defaultAnalysis.original + defaultAnalysis.impact : ℕ) : ℚ) / 5 ∧
      ∀ i : Fin 5, 1 ≤ dimValue defaultAnalysis i ∧ dimValue defaultAnalysis i ≤ 10) := by
  constructor
  · intro net a h
    obtain ⟨out, rfl⟩ := quick_essay_analysis_some h
    exact ⟨analysisOf_overall out, analysisOf_dim_bounds out⟩
  · constructor
    · show (6 : ℚ) = ((30 : ℕ) : ℚ) / 5
      norm_num
    · intro i
      fin_cases i <;> exact ⟨by decide, by decide⟩

theorem c1_witness :
    (analysisOf []).overall_score =
      (((analysisOf []).relevance + (analysisOf []).content + (analysisOf []).writing +
        (analysisOf []).original + (analysisOf []).impact : ℕ) : ℚ) / 5 ∧
    ∀ i : Fin 5, 1 ≤ dimValue (analysisOf []) i ∧ dimValue (analysisOf []) i ≤ 10 :=
  c1_aggregate_is_mean_of_five_dimensions.1 (.resp 200 "") (analysisOf []) rfl

/-- C5: the grade is the total non-overlapping step function of the
aggregate with breakpoints 9, 8, 7, 6, 5 (grades A+, A, B+, B, C+, C), it is
exactly the function every produced analysis applies to its own aggregate,
and the neutral default analysis is graded consistently with it. -/
theorem c5_grade_step_function :
    (∀ s : ℚ, 9 ≤ s → gradeOf s = "A+") ∧
    (∀ s : ℚ, 8 ≤ s → s < 9 → gradeOf s = "A") ∧
    (∀ s : ℚ, 7 ≤ s → s < 8 → gradeOf s = "B+") ∧
    (∀ s : ℚ, 6 ≤ s → s < 7 → gradeOf s = "B") ∧
    (∀ s : ℚ, 5 ≤ s → s < 6 → gradeOf s = "C+") ∧
    (∀ s : ℚ, s < 5 → gradeOf s = "C") ∧
    (∀ (net : HttpOutcome) (a : Analysis), quick_essay_analysis net = some a →
        a.grade = gradeOf a.overall_score) ∧
    defaultAnalysis.grade = gradeOf defaultAnalysis.overall_score := by
  refine ⟨?_, ?_, ?_, ?_, ?_, ?_, ?_, ?_⟩
  · intro s h
    rw [gradeOf, if_pos h]
  · intro s h h'
    rw [gradeOf, if_neg (by linarith), if_pos h]
  · intro s h h'
    rw [gradeOf, if_neg (by linarith), if_neg (by linarith), if_pos h]
  · intro s h h'
    rw [gradeOf, if_neg (by linarith), if_neg (by linarith), if_neg (by linarith), if_pos h]
  · intro s h h'
    rw [gradeOf, if_neg (by linarith), if_neg (by linarith), if_neg (by linarith),
      if_neg (by linarith), if_pos h]
  · intro s h
    rw [gradeOf, if_neg (by linarith), if_neg (by linarith), if_neg (by linarith),
      if_neg (by linarith), if_neg (by linarith)]
  · intro net a h
    obtain ⟨out, rfl⟩ := quick_essay_analysis_some h
    exact analysisOf_grade out
  · show ( "B" : String) = gradeOf 6
    rw [gradeOf, if_neg (by norm_num), if_neg (by norm_num), if_neg (by norm_num),
      if_pos (by norm_num)]

theorem c5_witness :
    gradeOf 9 = "A+" ∧ gradeOf 8 = "A" ∧ gradeOf 7 = "B+" ∧ gradeOf 6 = "B" ∧
    gradeOf 5 = "C+" ∧ gradeOf (499 / 100) = "C" :=
  ⟨c5_grade_step_function.1 9 (by norm_num),
   c5_grade_step_function.2.1 8 (by norm_num) (by norm_num),
   c5_grade_step_function.2.2.1 7 (by norm_num) (by norm_num),
   c5_grade_step_function.2.2.2.1 6 (by norm_num) (by norm_num),
   c5_grade_step_function.2.2.2.2.1 5 (by norm_num) (by norm_num),
   c5_grade_step_function.2.2.2.2.2.1 (499 / 100) (by norm_num)⟩

theorem matchCI_leadsWith : ∀ {p s r : List Char}, matchCI p s = some r →
    leadsWith (pyLower p) (pyLower s) = true
  | [], _, _, _ => rfl
  | _ :: _, [], _, h => by simp [matchCI] at h
  | a :: as, b :: bs, r, h => by
    rw [matchCI] at h
    by_cases hab : a.toLower = b.toLower
    · rw [if_pos hab] at h
      have ih := matchCI_leadsWith h
      simp [pyLower, leadsWith, hab] at ih ⊢
      exact ih
    · rw [if_neg hab] at h
      exact absurd h (by simp)

theorem labelIntAt_matchCI {lbl s : List Char} {n : Nat} (h : labelIntAt lbl s = some n) :
    ∃ r, matchCI lbl s = some r := by
  cases hm : matchCI lbl s with
  | none =>
    simp only [labelIntAt, hm] at h
    exact absurd h (by simp)
  | some r => exact ⟨r, rfl⟩

theorem searchFirst_labelIntAt_strIn {lbl : List Char} :
    ∀ {s : List Char} {n : Nat}, searchFirst (labelIntAt lbl) s = some n →
      strIn (pyLower lbl) (pyLower s) = true
  | [], n, h => by
    rw [searchFirst] at h
    obtain ⟨r, hr⟩ := labelIntAt_matchCI h
    simpa [strIn, pyLower] using matchCI_leadsWith hr
  | c :: t, n, h => by
    rw [searchFirst] at h
    cases hm : labelIntAt lbl (c :: t) with
    | some m =>
      obtain ⟨r, hr⟩ := labelIntAt_matchCI hm
      have hl := matchCI_leadsWith hr
      simp only [strIn, Bool.or_eq_true]
      left
      simpa [pyLower] using hl
    | none =>
      simp only [hm] at h
      have ih := searchFirst_labelIntAt_strIn h
      simp only [strIn, Bool.or_eq_true]
      right
      simpa [pyLower] using ih

theorem parseDim_of_not_contained {lbl : String} {out : List Char}
    (h : strIn (pyLower lbl.toList) (pyLower out) = false) :
    parseDim lbl out = 6 := by
  have hn : searchFirst (labelIntAt lbl.toList) out = none := by
    cases hs : searchFirst (labelIntAt lbl.toList) out with
    | none => rfl
    | some n =>
      have htrue := searchFirst_labelIntAt_strIn hs
      rw [h] at htrue
      exact absurd htrue (by decide)
  unfold parseDim
  rw [hn]

/-- C6: for a status-OK scoring response the analysis always exists (parsing
a malformed or partial response never aborts scoring); each of the five
dimensions is exactly the first integer parsed after its label clamped to
`[1, 10]`, or `6` when the label pattern does not match anywhere; in
particular a response not containing `writing:` (case-insensitively) yields
`writing = 6`. -/
theorem c6_label_parse_clamp_default :
    (∀ body : String,
        quick_essay_analysis (.resp 200 body) = some (analysisOf (pyStrip body.toList))) ∧
    (∀ (out : List Char) (i : Fin 5), dimValue (analysisOf out) i = parseDim (dimLabel i) out) ∧
    (∀ (lbl : String) (out : List Char) (n : Nat),
        searchFirst (labelIntAt lbl.toList) out = some n →
        parseDim lbl out = clamp110 n ∧ 1 ≤ clamp110 n ∧ clamp110 n ≤ 10) ∧
    (∀ (lbl : String) (out : List Char),
        searchFirst (labelIntAt lbl.toList) out = none → parseDim lbl out = 6) ∧
    (∀ out : List Char, strIn (pyLower writingLbl.toList) (pyLower out) = false →
        (analysisOf out).writing = 6) := by
  refine ⟨?_, ?_, ?_, ?_, ?_⟩
  · intro body
    rfl
  · intro out i
    fin_cases i <;> rfl
  · intro lbl out n h
    exact ⟨by unfold parseDim; rw [h], clamp110_bounds n⟩
  · intro lbl out h
    unfold parseDim
    rw [h]
  · intro out h
    show parseDim writingLbl out = 6
    exact parseDim_of_not_contained h

theorem c6_witness :
    (analysisOf ( "Relevance: 8\nContent: 7\nOriginal: 6\nImpact: 8".toList)).writing = 6 :=
  c6_label_parse_clamp_default.2.2.2.2 ( "Relevance: 8\nContent: 7\nOriginal: 6\nImpact: 8".toList)
    (by decide)

theorem ollama_classify_score_resp200 (essay body : String) :
    ollama_classify_score essay (.resp 200 body) =
      ⟨applyFallback essay (provisionalClassification (pyStrip body.toList)),
       some (parsedScore (pyStrip body.toList)), String.mk (pyStrip body.toList)⟩ := rfl

theorem provisional_yes_or_no (out : List Char) :
    provisionalClassification out = "Yes" ∨ provisionalClassification out = "No" := by
  cases hs : searchFirst classifAt out with
  | none =>
    right
    simp [provisionalClassification, hs]
  | some b =>
    cases b with
    | false =>
      right
      simp [provisionalClassification, hs]
    | true =>
      left
      simp [provisionalClassification, hs]

theorem applyFallback_no (essay : String) :
    applyFallback essay "No" =
      (if exclusionCount essay < inclusionCount essay ∧ 2 ≤ inclusionCount essay then "Yes"
       else "No") := by
  rw [applyFallback, if_pos rfl]

theorem applyFallback_yes (essay : String) : applyFallback essay "Yes" = "Yes" := by
  rw [applyFallback, if_neg (by decide)]

theorem applyFallback_yes_or_no (essay : String) (c0 : String)
    (h : c0 = "Yes" ∨ c0 = "No") :
    applyFallback essay c0 = "Yes" ∨ applyFallback essay c0 = "No" := by
  rcases h with h | h
  · subst h
    exact Or.inl (applyFallback_yes essay)
  · subst h
    by_cases hcond : exclusionCount essay < inclusionCount essay ∧ 2 ≤ inclusionCount essay
    · exact Or.inl (by rw [applyFallback_no, if_pos hcond])
    · exact Or.inr (by rw [applyFallback_no, if_neg hcond])

/-- C2: when the provisional verdict parsed from a status-OK response is
`No`, the final verdict is `Yes` exactly when the full essay text contains
strictly more inclusion keywords than exclusion keywords and at least two
inclusion keywords; the override never fires on a provisional `Yes`;
consequently at least 2 inclusion and 0 exclusion keywords give `Yes`, and
exactly 1 inclusion and 0 exclusion keywords leave `No`. -/
theorem c2_fallback_override :
    ∀ essay body : String,
      (provisionalClassification (pyStrip body.toList) = "No" →
        ((ollama_classify_score essay (.resp 200 body)).classification = "Yes" ↔
          (exclusionCount essay < inclusionCount essay ∧ 2 ≤ inclusionCount essay))) ∧
      (provisionalClassification (pyStrip body.toList) = "Yes" →
        (ollama_classify_score essay (.resp 200 body)).classification = "Yes") ∧
      (provisionalClassification (pyStrip body.toList) = "No" →
        2 ≤ inclusionCount essay → exclusionCount essay = 0 →
        (ollama_classify_score essay (.resp 200 body)).classification = "Yes") ∧
      (provisionalClassification (pyStrip body.toList) = "No" →
        inclusionCount essay = 1 → exclusionCount essay = 0 →
        (ollama_classify_score essay (.resp 200 body)).classification = "No") := by
  intro essay body
  have hc : (ollama_classify_score essay (.resp 200 body)).classification =
      applyFallback essay (provisionalClassification (pyStrip body.toList)) := rfl
  refine ⟨?_, ?_, ?_, ?_⟩
  · intro hno
    rw [hc, hno, applyFallback_no]
    constructor
    · intro hy
      by_contra hcond
      rw [if_neg hcond] at hy
      exact absurd hy (by decide)
    · intro hcond
      rw [if_pos hcond]
  · intro hyes
    rw [hc, hyes, applyFallback_yes]
  · intro hno h2 h0
    rw [hc, hno, applyFallback_no, if_pos ⟨by omega, h2⟩]
  · intro hno h1 h0
    rw [hc, hno, applyFallback_no, if_neg (by omega)]

theorem c2_witness :
    (ollama_classify_score ( "We remember gandhi and nehru")
        (.resp 200 ( "CLASSIFICATION: NO"))).classification = "Yes" ∧
    (ollama_classify_score ( "We remember gandhi")
        (.resp 200 ( "CLASSIFICATION: NO"))).classification = "No" :=
  ⟨(c2_fallback_override ( "We remember gandhi and nehru") ( "CLASSIFICATION: NO")).2.2.1
      (by decide) (by decide) (by decide),
   (c2_fallback_override ( "We remember gandhi") ( "CLASSIFICATION: NO")).2.2.2
      (by decide) (by decide) (by decide)⟩

/-- C10: the classifier result is always one of the three verdicts `Yes`,
`No`, `Error`; the advisory score is `none` exactly when the verdict is
`Error`; and on every status-OK, non-raising call the score is present (the
parsed value, `3.0` when defaulted). -/
theorem c10_verdict_score_shape :
    ∀ (essay : String) (net : HttpOutcome),
      ((ollama_classify_score essay net).classification = "Yes" ∨
       (ollama_classify_score essay net).classification = "No" ∨
       (ollama_classify_score essay net).classification = "Error") ∧
      ((ollama_classify_score essay net).score = none ↔
        (ollama_classify_score essay net).classification = "Error") ∧
      (∀ body : String, net = .resp 200 body →
        (ollama_classify_score essay net).score = some (parsedScore (pyStrip body.toList))) := by
  intro essay net
  cases net with
  | exn msg =>
    refine ⟨Or.inr (Or.inr rfl), by simp [ollama_classify_score], ?_⟩
    intro body h
    cases h
  | resp status body =>
    by_cases hs : status = 200
    · subst hs
      have hcls := applyFallback_yes_or_no essay
        (provisionalClassification (pyStrip body.toList))
        (provisional_yes_or_no (pyStrip body.toList))
      refine ⟨?_, ?_, ?_⟩
      · rcases hcls with h | h
        · exact Or.inl h
        · exact Or.inr (Or.inl h)
      · constructor
        · intro h
          exact absurd h (by simp [ollama_classify_score_resp200])
        · intro h
          have h2 : applyFallback essay (provisionalClassification (pyStrip body.toList)) =
              "Error" := h
          rcases hcls with h' | h' <;> rw [h'] at h2 <;> exact absurd h2 (by decide)
      · intro b hb
        injection hb with h1 h2
        subst h2
        rfl
    · refine ⟨Or.inr (Or.inr ?_), ?_, ?_⟩
      · simp [ollama_classify_score, hs]
      · simp [ollama_classify_score, hs]
      · intro b hb
        injection hb with h1 h2
        exact absurd h1 hs

theorem c10_witness :
    (ollama_classify_score ( "an essay") (.resp 200 ( "no SCORE line"))).score =
      some (parsedScore (pyStrip ( "no SCORE line").toList)) :=
  (c10_verdict_score_shape ( "an essay") (.resp 200 ( "no SCORE line"))).2.2
    ( "no SCORE line") rfl

theorem ollama_classify_score_failed (essay : String) {net : HttpOutcome}
    (h : netFailed net) :
    (ollama_classify_score essay net).classification = "Error" := by
  cases net with
  | exn msg => rfl
  | resp status body =>
    have hs : status ≠ 200 := h
    simp [ollama_classify_score, hs]

theorem classifyStep_error (acc : List Essay × List String) (x : FileItem × HttpOutcome)
    (h : (ollama_classify_score x.1.content x.2).classification = "Error") :
    classifyStep acc x = acc := by
  simp only [classifyStep]
  rw [if_pos h]

/-- C9: a classification call that fails with a transport error (raised
exception) or protocol error (non-OK status) yields the `Error` verdict
carrying the exception message, and the phase-1 loop over any batch
containing that item produces exactly the included/excluded lists of the
batch without it — the item is neither scored nor ranked nor moved, and the
remaining items are processed unchanged. -/
theorem c9_classification_error_skips_item :
    ∀ (it : FileItem) (net : HttpOutcome) (l1 l2 : List (FileItem × HttpOutcome)),
      netFailed net →
      (ollama_classify_score it.content net).classification = "Error" ∧
      (∀ msg : String, net = .exn msg → (ollama_classify_score it.content net).raw = msg) ∧
      classification_phase (l1 ++ (it, net) :: l2) = classification_phase (l1 ++ l2) := by
  intro it net l1 l2 h
  have herr := ollama_classify_score_failed it.content h
  refine ⟨herr, ?_, ?_⟩
  · intro msg hm
    subst hm
    rfl
  · unfold classification_phase
    rw [List.foldl_append, List.foldl_append, List.foldl_cons, classifyStep_error _ _ herr]

theorem c9_witness :
    (ollama_classify_score ( "some text") (.resp 500 ( "server error"))).classification =
      "Error" ∧
    classification_phase [ (⟨ "a.txt", "some text"⟩, .resp 500 ( "server error")) ] =
      classification_phase [] :=
  ⟨((c9_classification_error_skips_item ⟨ "a.txt", "some text"⟩ (.resp 500 ( "server error"))
      [] [] (by decide : (500 : ℕ) ≠ 200)).1),
   ((c9_classification_error_skips_item ⟨ "a.txt", "some text"⟩ (.resp 500 ( "server error"))
      [] [] (by decide : (500 : ℕ) ≠ 200)).2.2)⟩

theorem quick_essay_analysis_failed {net : HttpOutcome} (h : netFailed net) :
    quick_essay_analysis net = none := by
  cases net with
  | exn msg => rfl
  | resp status body =>
    have hs : status ≠ 200 := h
    simp [quick_essay_analysis, hs]

/-- C4: an included essay whose scoring call fails with a transport or
protocol error is kept with the fixed neutral default analysis (all five
dimensions 6, aggregate 6, grade B), it still appears in the ranked
output, and the scoring phase never drops an item (output length equals
input length). -/
theorem c4_scoring_failure_keeps_item_with_default :
    ∀ (l : List (Essay × HttpOutcome)) (e : Essay) (net : HttpOutcome),
      (e, net) ∈ l → netFailed net →
      quick_essay_analysis net = none ∧
      (⟨e.filename, e.content, e.basic_score, defaultAnalysis⟩ : ScoredEssay) ∈
        scoring_phase l ∧
      (⟨e.filename, e.content, e.basic_score, defaultAnalysis⟩ : ScoredEssay) ∈
        rank_essays (scoring_phase l) ∧
      (scoring_phase l).length = l.length ∧
      defaultAnalysis.overall_score = 6 ∧ defaultAnalysis.grade = "B" ∧
      (∀ i : Fin 5, dimValue defaultAnalysis i = 6) := by
  intro l e net hmem h
  have hq := quick_essay_analysis_failed h
  have hmap : (⟨e.filename, e.content, e.basic_score, defaultAnalysis⟩ : ScoredEssay) ∈
      scoring_phase l := by
    unfold scoring_phase
    refine List.mem_map.mpr ⟨(e, net), hmem, ?_⟩
    show (match quick_essay_analysis net with
      | some a => (⟨e.filename, e.content, e.basic_score, a⟩ : ScoredEssay)
      | none => ⟨e.filename, e.content, e.basic_score, defaultAnalysis⟩) = _
    rw [hq]
  refine ⟨hq, hmap, ?_, ?_, rfl, rfl, ?_⟩
  · unfold rank_essays
    exact (List.mem_insertionSort rankLE).mpr hmap
  · unfold scoring_phase
    exact List.length_map _ _
  · intro i
    fin_cases i <;> rfl

theorem c4_witness :
    quick_essay_analysis (.exn ( "timed out")) = none ∧
    (⟨ "a.txt", "essay text", some 3, defaultAnalysis⟩ : ScoredEssay) ∈
      scoring_phase [ (⟨ "a.txt", "essay text", some 3⟩, .exn ( "timed out")) ] ∧
    (⟨ "a.txt", "essay text", some 3, defaultAnalysis⟩ : ScoredEssay) ∈
      rank_essays (scoring_phase [ (⟨ "a.txt", "essay text", some 3⟩, .exn ( "timed out")) ]) ∧
    (scoring_phase [ (⟨ "a.txt", "essay text", some 3⟩, .exn ( "timed out")) ]).length =
      [ ((⟨ "a.txt", "essay text", some 3⟩ : Essay), HttpOutcome.exn ( "timed out")) ].length ∧
    defaultAnalysis.overall_score = 6 ∧ defaultAnalysis.grade = "B" ∧
    (∀ i : Fin 5, dimValue defaultAnalysis i = 6) :=
  c4_scoring_failure_keeps_item_with_default
    [ (⟨ "a.txt", "essay text", some 3⟩, .exn ( "timed out")) ]
    ⟨ "a.txt", "essay text", some 3⟩ (.exn ( "timed out"))
    (List.mem_singleton.mpr rfl) trivial

theorem rank_essays_cons (a : ScoredEssay) (l : List ScoredEssay) :
    rank_essays (a :: l) = (rank_essays l).orderedInsert rankLE a := rfl

theorem filter_orderedInsert_pos (p : ScoredEssay → Bool) (a : ScoredEssay)
    (hpa : p a = true) (hp : ∀ b, ¬ rankLE a b → p b = false) :
    ∀ l : List ScoredEssay, (l.orderedInsert rankLE a).filter p = a :: l.filter p
  | [] => by simp [List.orderedInsert, hpa]
  | b :: l => by
    rw [List.orderedInsert]
    by_cases h : rankLE a b
    · rw [if_pos h]
      simp [List.filter_cons, hpa]
    · rw [if_neg h]
      simp [List.filter_cons, hp b h, filter_orderedInsert_pos p a hpa hp l]

theorem filter_orderedInsert_neg (p : ScoredEssay → Bool) (a : ScoredEssay)
    (hpa : p a = false) :
    ∀ l : List ScoredEssay, (l.orderedInsert rankLE a).filter p = l.filter p
  | [] => by simp [List.orderedInsert, hpa]
  | b :: l => by
    rw [List.orderedInsert]
    by_cases h : rankLE a b
    · rw [if_pos h]
      simp [List.filter_cons, hpa]
    · rw [if_neg h]
      simp [List.filter_cons, filter_orderedInsert_neg p a hpa l]

theorem rank_essays_filter_eq (s : ℚ) :
    ∀ l : List ScoredEssay,
      (rank_essays l).filter (fun e => e.analysis.overall_score = s) =
        l.filter (fun e => e.analysis.overall_score = s)
  | [] => rfl
  | a :: l => by
    rw [rank_essays_cons]
    by_cases hpa : a.analysis.overall_score = s
    · rw [filter_orderedInsert_pos _ a (by simp [hpa]) ?_ _]
      · rw [rank_essays_filter_eq s l, List.filter_cons]
        simp [hpa]
      · intro b hb
        simp only [decide_eq_false_iff_not]
        intro hbs
        exact hb (show b.analysis.overall_score ≤ a.analysis.overall_score from
          le_of_eq (hbs.trans hpa.symm))
    · rw [filter_orderedInsert_neg _ a (by simp [hpa]) _]
      rw [rank_essays_filter_eq s l, List.filter_cons]
      simp [hpa]

/-- C3: zone ranking is a permutation of its input (no item dropped or
duplicated), its output is non-increasing in the aggregate score, and it is
stable: for every score value, the sublist of items carrying that score is
exactly the input's sublist, so equal-score items keep their original
relative order. -/
theorem c3_rank_is_stable_descending_permutation :
    ∀ l : List ScoredEssay,
      (rank_essays l).Perm l ∧
      (rank_essays l).Pairwise rankLE ∧
      ∀ s : ℚ,
        (rank_essays l).filter (fun e => e.analysis.overall_score = s) =
          l.filter (fun e => e.analysis.overall_score = s) := by
  intro l
  exact ⟨List.perm_insertionSort rankLE l, List.sorted_insertionSort rankLE l,
    fun s => rank_essays_filter_eq s l⟩

theorem scoreAt_bounds {s : List Char} {t : Nat} (h : scoreAt s = some t) :
    10 ≤ t ∧ t ≤ 59 := by
  rw [scoreAt] at h
  split at h
  · exact absurd h (by simp)
  · split at h
    · exact absurd h (by simp)
    · rename_i d rest2
      split at h
      · rename_i hdd
        split at h
        · rename_i f1 f2 r4
          split at h
          · rename_i hf
            obtain ⟨-, hf2, hf3⟩ := hf
            injection h with h'
            omega
          · injection h with h'
            omega
        · injection h with h'
          omega
      · exact absurd h (by simp)

theorem searchFirst_scoreAt_bounds : ∀ {s : List Char} {t : Nat},
    searchFirst scoreAt s = some t → 10 ≤ t ∧ t ≤ 59
  | [], t, h => by
    rw [searchFirst] at h
    exact scoreAt_bounds h
  | c :: l, t, h => by
    rw [searchFirst] at h
    cases hm : scoreAt (c :: l) with
    | some m =>
      simp only [hm] at h
      injection h with h'
      subst h'
      exact scoreAt_bounds hm
    | none =>
      simp only [hm] at h
      exact searchFirst_scoreAt_bounds h

theorem parsedScore_bounds (out : List Char) :
    1 ≤ parsedScore out ∧ parsedScore out ≤ 59 / 10 := by
  cases hs : searchFirst scoreAt out with
  | none =>
    have : parsedScore out = 3 := by rw [parsedScore, hs]
    rw [this]
    norm_num
  | some t =>
    have hval : parsedScore out = (t : ℚ) / 10 := by rw [parsedScore, hs]
    obtain ⟨h1, h2⟩ := searchFirst_scoreAt_bounds hs
    have ht1 : (10 : ℚ) ≤ (t : ℚ) := by exact_mod_cast h1
    have ht2 : (t : ℚ) ≤ 59 := by exact_mod_cast h2
    rw [hval]
    constructor <;> linarith

theorem rank_essays_map_basic_score (g : ScoredEssay → Option ℚ) (l : List ScoredEssay) :
    rank_essays (l.map (fun e => ⟨e.filename, e.content, g e, e.analysis⟩)) =
      (rank_essays l).map (fun e => ⟨e.filename, e.content, g e, e.analysis⟩) := by
  unfold rank_essays
  exact (List.map_insertionSort rankLE rankLE
    (fun e => ⟨e.filename, e.content, g e, e.analysis⟩) l (fun a _ b _ => Iff.rfl)).symm

/-- C7 counterexample: the response `SCORE: 5.9` is parsed to the score
5.9, which the classifier returns as is although 5.9 is outside `[1.0, 5.0]`
— the claimed range of the parsed score is violated. -/
theorem c7_counterexample_score_59 :
    (ollama_classify_score ( "any essay") (.resp 200 ( "SCORE: 5.9"))).score =
      some ((59 : ℚ) / 10) ∧ ¬ ((59 : ℚ) / 10 ≤ 5) := by
  constructor
  · show some (parsedScore (pyStrip ( "SCORE: 5.9").toList)) = some ((59 : ℚ) / 10)
    have h : searchFirst scoreAt (pyStrip ( "SCORE: 5.9").toList) = some 59 := by decide
    rw [parsedScore, h]
    norm_num
  · norm_num

/-- C7 amended: the parsed advisory score is one digit 1–5 with an optional
single decimal digit, hence it always lies in `[1.0, 5.9]` (not `[1.0,
5.0]`); it defaults to `3.0` when the pattern is absent or unparsable; a
status-OK call always carries it; and it is advisory only: rewriting every
item's advisory score arbitrarily commutes with ranking, so it has no
effect on the ranked output. -/
theorem c7_amended_advisory_score_range :
    (∀ (out : List Char) (t : Nat), searchFirst scoreAt out = some t → 10 ≤ t ∧ t ≤ 59) ∧
    (∀ out : List Char, 1 ≤ parsedScore out ∧ parsedScore out ≤ 59 / 10) ∧
    (∀ out : List Char, searchFirst scoreAt out = none → parsedScore out = 3) ∧
    (∀ essay body : String,
        (ollama_classify_score essay (.resp 200 body)).score =
          some (parsedScore (pyStrip body.toList))) ∧
    (∀ (g : ScoredEssay → Option ℚ) (l : List ScoredEssay),
        rank_essays (l.map (fun e => ⟨e.filename, e.content, g e, e.analysis⟩)) =
          (rank_essays l).map (fun e => ⟨e.filename, e.content, g e, e.analysis⟩)) := by
  refine ⟨?_, ?_, ?_, ?_, ?_⟩
  · intro out t h
    exact searchFirst_scoreAt_bounds h
  · exact parsedScore_bounds
  · intro out h
    rw [parsedScore, h]
  · intro essay body
    rfl
  · exact rank_essays_map_basic_score

theorem c7_amended_witness :
    (10 ≤ 59 ∧ 59 ≤ 59) ∧ parsedScore ( "no numeric line here".toList) = 3 :=
  ⟨c7_amended_advisory_score_range.1 ( "SCORE: 5.9".toList) 59 (by decide),
   c7_amended_advisory_score_range.2.2.1 ( "no numeric line here".toList) (by decide)⟩

theorem mem_entriesFor {e : ZoneEssay} (zn : String) :
    ∀ (cnt : Nat) (z : List ZoneEssay), e ∈ z →
      ∃ s ∈ entriesFor zn cnt z,
        s.filename = e.filename ∧ s.zone_rank = e.zone_rank ∧
          s.overall_score = e.overall_score := by
  intro cnt z
  induction z generalizing cnt with
  | nil =>
    intro he
    cases he
  | cons b t ih =>
    intro he
    rcases List.mem_cons.mp he with rfl | ht
    · exact ⟨⟨cnt + 1, e.filename, zn, e.zone_rank, e.overall_score, e.content.toList.take 400⟩,
        List.mem_cons_self _ _, rfl, rfl, rfl⟩
    · obtain ⟨s, hs, h1, h2, h3⟩ := ih (cnt + 1) ht
      exact ⟨s, List.mem_cons_of_mem _ hs, h1, h2, h3⟩

theorem mem_combined_summary {e : ZoneEssay} :
    ∀ (zs : List (List ZoneEssay)) (cnt : Nat) (z : List ZoneEssay),
      z ∈ zs → e ∈ z →
      ∃ s ∈ combined_summary cnt zs,
        s.filename = e.filename ∧ s.zone_rank = e.zone_rank ∧
          s.overall_score = e.overall_score := by
  intro zs
  induction zs with
  | nil =>
    intro cnt z hz
    cases hz
  | cons zh zt ih =>
    intro cnt z hz he
    rcases List.mem_cons.mp hz with rfl | hz'
    · cases hzs : z with
      | nil =>
        subst hzs
        cases he
      | cons f r =>
        subst hzs
        obtain ⟨s, hs, h1, h2, h3⟩ := mem_entriesFor f.zone cnt (f :: r) he
        exact ⟨s, List.mem_append_left _ hs, h1, h2, h3⟩
    · cases zh with
      | nil =>
        exact ih cnt z hz' he
      | cons f r =>
        obtain ⟨s, hs, h1, h2, h3⟩ := ih (cnt + (f :: r).length) z hz' he
        exact ⟨s, List.mem_append_right _ hs, h1, h2, h3⟩

/-- C8: the cross-zone phase drops zones with an empty top list; with fewer
than 2 surviving zones it stops with the insufficient-zones outcome, the
per-zone results passing through unchanged; with 2 or more surviving zones
the grand comparison is attempted and every surviving candidate is
represented in the prompt (an entry with its filename, zone rank and zone
score). -/
theorem c8_cross_zone_aggregation :
    ∀ zones : List (String × List ZoneEssay),
      (multi_zone_competition zones).perZone = zones ∧
      ((zones.filter (fun z => !z.2.isEmpty)).length < 2 →
        (multi_zone_competition zones).cross = CrossZoneResult.insufficientZones) ∧
      (2 ≤ (zones.filter (fun z => !z.2.isEmpty)).length →
        ∃ entries, (multi_zone_competition zones).cross = CrossZoneResult.compared entries ∧
          ∀ z ∈ zones.filter (fun z => !z.2.isEmpty), ∀ e ∈ z.2,
            ∃ s ∈ entries, s.filename = e.filename ∧ s.zone_rank = e.zone_rank ∧
              s.overall_score = e.overall_score) := by
  intro zones
  refine ⟨?_, ?_, ?_⟩
  · simp only [multi_zone_competition]
    split <;> rfl
  · intro h
    simp only [multi_zone_competition]
    rw [if_pos h]
  · intro h
    simp only [multi_zone_competition]
    rw [if_neg (by omega)]
    refine ⟨_, rfl, ?_⟩
    intro z hz e he
    exact mem_combined_summary ((zones.filter (fun z => !z.2.isEmpty)).map (fun z => z.2))
      0 z.2 (List.mem_map_of_mem (fun z => z.2) hz) he

theorem c8_witness :
    (multi_zone_competition
        [ ( "Zone A", [ ⟨ "a1.txt", "Zone A", "text a", 8, "A", 1⟩ ]),
          ( "Zone B", ([] : List ZoneEssay)) ]).cross = CrossZoneResult.insufficientZones ∧
    (∃ entries, (multi_zone_competition
          [ ( "Zone A", [ ⟨ "a1.txt", "Zone A", "text a", 8, "A", 1⟩ ]),
            ( "Zone B", [ ⟨ "b1.txt", "Zone B", "text b", 7, "B+", 1⟩ ]) ]).cross =
        CrossZoneResult.compared entries ∧
      ∀ z ∈ [ ( "Zone A", [ (⟨ "a1.txt", "Zone A", "text a", 8, "A", 1⟩ : ZoneEssay) ]),
              ( "Zone B", [ ⟨ "b1.txt", "Zone B", "text b", 7, "B+", 1⟩ ]) ].filter
            (fun z => !z.2.isEmpty),
        ∀ e ∈ z.2,
          ∃ s ∈ entries, s.filename = e.filename ∧ s.zone_rank = e.zone_rank ∧
            s.overall_score = e.overall_score) :=
  ⟨(c8_cross_zone_aggregation
      [ ( "Zone A", [ ⟨ "a1.txt", "Zone A", "text a", 8, "A", 1⟩ ]),
        ( "Zone B", ([] : List ZoneEssay)) ]).2.1 (by decide),
   (c8_cross_zone_aggregation
      [ ( "Zone A", [ ⟨ "a1.txt", "Zone A", "text a", 8, "A", 1⟩ ]),
        ( "Zone B", [ ⟨ "b1.txt", "Zone B", "text b", 7, "B+", 1⟩ ]) ]).2.2 (by decide)⟩
